import Mathlib

/-!
Verification development for the oterm conversational orchestration layer
(`src/oterm/ollamaclient.py`): a shallow embedding in Lean 4 of the format
resolver (`parse_format`), the options normalizer (`parse_ollama_parameters`,
`jsonify_options`), the tool dispatcher (the inner loops of
`OllamaLLM.completion`), the recursive completion operation and the streaming
operation, together with theorems settling the specification's claims.

Python exceptions are modelled with `Except`/`Option`, the opaque network
transport is modelled as an oracle function from the message list to a
response, and the asynchronous stream is modelled as the list of chunks it
delivers.  Fuel makes the unbounded tool-call recursion of `completion` a
total function; `none` marks fuel exhaustion.
-/

set_option maxHeartbeats 1600000
set_option exponentiation.threshold 1100

/-- JSON values as produced by Python's `json.loads` (numbers are kept as
their source lexeme; nothing in the program inspects numeric values). -/
inductive Jsn where
  | null : Jsn
  | bool (b : Bool) : Jsn
  | num (lexeme : String) : Jsn
  | str (s : String) : Jsn
  | arr (elems : List Jsn) : Jsn
  | obj (members : List (String × Jsn)) : Jsn

/-- Skip JSON whitespace. -/
def skipWs : List Char → List Char
  | [] => []
  | c :: cs => if c = ' ' || c = '\t' || c = '\n' || c = '\r' then skipWs cs else c :: cs

/-- Consume an expected literal character sequence. -/
def stripChars : List Char → List Char → Option (List Char)
  | [], cs => some cs
  | _ :: _, [] => none
  | p :: ps, c :: cs => if c = p then stripChars ps cs else none

/-- Translate a JSON escape character. -/
def unescapeChar (d : Char) : Char :=
  if d = 'n' then '\n' else if d = 't' then '\t' else if d = 'r' then '\r' else d

/-- Parse a JSON string body (the opening quote already consumed). -/
def parseJsonString : List Char → String → Option (String × List Char)
  | [], _ => none
  | '\\' :: [], _ => none
  | '\\' :: d :: cs, acc => parseJsonString cs (acc.push (unescapeChar d))
  | c :: cs, acc =>
    if c = '"' then some (acc, cs) else parseJsonString cs (acc.push c)

/-- Characters that may occur in a JSON number lexeme. -/
def numChar (c : Char) : Bool :=
  c.isDigit || c = '-' || c = '+' || c = '.' || c = 'e' || c = 'E'

/-- Parse a JSON number, keeping its lexeme. -/
def parseNumber (cs : List Char) : Option (Jsn × List Char) :=
  let (tok, rest) := cs.span numChar
  if tok.any Char.isDigit &&
      (tok.head? = some '-' || (tok.head?.map Char.isDigit).getD false) then
    some (Jsn.num (String.mk tok), rest)
  else none

mutual

/-- Recursive-descent JSON value parser (fuel-indexed). -/
def parseValue (fuel : Nat) (input : List Char) : Option (Jsn × List Char) :=
  match fuel with
  | 0 => none
  | fuel + 1 =>
    match skipWs input with
    | [] => none
    | c :: rest =>
      if c = '"' then
        match parseJsonString rest "" with
        | some (s, r) => some (Jsn.str s, r)
        | none => none
      else if c = Char.ofNat 123 then
        match skipWs rest with
        | d :: r2 =>
          if d = Char.ofNat 125 then some (Jsn.obj [], r2)
          else parseMembers fuel (d :: r2)
        | [] => none
      else if c = '[' then
        match skipWs rest with
        | d :: r2 =>
          if d = ']' then some (Jsn.arr [], r2)
          else parseElements fuel (d :: r2)
        | [] => none
      else if c = 't' then
        (stripChars ['r', 'u', 'e'] rest).map (fun r => (Jsn.bool true, r))
      else if c = 'f' then
        (stripChars ['a', 'l', 's', 'e'] rest).map (fun r => (Jsn.bool false, r))
      else if c = 'n' then
        (stripChars ['u', 'l', 'l'] rest).map (fun r => (Jsn.null, r))
      else
        parseNumber (c :: rest)

/-- Parse the members of a JSON object (fuel-indexed). -/
def parseMembers (fuel : Nat) (input : List Char) : Option (Jsn × List Char) :=
  match fuel with
  | 0 => none
  | fuel + 1 =>
    match skipWs input with
    | [] => none
    | c :: rest =>
      if c = '"' then
        match parseJsonString rest "" with
        | none => none
        | some (k, r1) =>
          match skipWs r1 with
          | ':' :: r2 =>
            match parseValue fuel r2 with
            | none => none
            | some (v, r3) =>
              match skipWs r3 with
              | [] => none
              | d :: r4 =>
                if d = ',' then
                  match parseMembers fuel r4 with
                  | some (Jsn.obj ms, r5) => some (Jsn.obj ((k, v) :: ms), r5)
                  | _ => none
                else if d = Char.ofNat 125 then some (Jsn.obj [(k, v)], r4)
                else none
          | _ => none
      else none

/-- Parse the elements of a JSON array (fuel-indexed). -/
def parseElements (fuel : Nat) (input : List Char) : Option (Jsn × List Char) :=
  match fuel with
  | 0 => none
  | fuel + 1 =>
    match parseValue fuel input with
    | none => none
    | some (v, r1) =>
      match skipWs r1 with
      | [] => none
      | d :: r2 =>
        if d = ',' then
          match parseElements fuel r2 with
          | some (Jsn.arr es, r3) => some (Jsn.arr (v :: es), r3)
          | _ => none
        else if d = ']' then some (Jsn.arr [v], r2)
        else none

end

/-- Python's `json.loads`: parse a complete JSON document or fail
(`none` models `json.JSONDecodeError`). -/
def json_loads (s : String) : Option Jsn :=
  match parseValue (s.length + 1) s.toList with
  | some (v, rest) =>
    match skipWs rest with
    | [] => some v
    | _ => none
  | none => none

/-- Result of the format resolver: either a schema object or the raw
unconstrained marker (`""` or `"json"`). -/
inductive FormatResult where
  | schema (o : List (String × Jsn)) : FormatResult
  | raw (s : String) : FormatResult

/-- The message of the exception raised on an invalid format. -/
def invalidFormatMsg (format_text : String) : String :=
  "Invalid Ollama format: \x27" ++ format_text ++ "\x27"

/-- `parse_format` from `src/oterm/ollamaclient.py`: try `json.loads`; a dict
is returned as the schema; on `JSONDecodeError` the raw text is returned when
it is `""` or `"json"`; every other path raises. -/
def parse_format (format_text : String) : Except String FormatResult :=
  match json_loads format_text with
  | some jsn =>
    match jsn with
    | Jsn.obj o => Except.ok (FormatResult.schema o)
    | _ => Except.error (invalidFormatMsg format_text)
  | none =>
    if format_text = "" then Except.ok (FormatResult.raw format_text)
    else if format_text = "json" then Except.ok (FormatResult.raw format_text)
    else Except.error (invalidFormatMsg format_text)

/-- Python values produced by `ast.literal_eval` over the option parameter
format and stored inside an `Options` object: strings, ints, floats (kept as
their lexeme, never computed with), booleans, lists and `None`. -/
inductive LitVal where
  | str (s : String) : LitVal
  | int (n : Int) : LitVal
  | float (lexeme : String) : LitVal
  | bool (b : Bool) : LitVal
  | list (elems : List LitVal) : LitVal
  | pynone : LitVal

/-- Numeric value of a digit string. -/
def digitsToNat (ds : List Char) : Nat :=
  ds.foldl (fun n c => n * 10 + (c.toNat - 48)) 0

/-- Decompose a float lexeme into its integer significand (the integer-part
and fraction-part digits read as one number) and its decimal exponent (the
written exponent minus the number of fraction digits), so that the denoted
magnitude is `significand * 10 ^ exponent`. -/
def floatParts (lexeme : String) : Nat × Int :=
  let cs := lexeme.toList
  let cs := match cs with
    | '-' :: rest => rest
    | '+' :: rest => rest
    | _ => cs
  let intPart := cs.takeWhile Char.isDigit
  let cs := cs.dropWhile Char.isDigit
  let (fracPart, cs) := match cs with
    | '.' :: rest => (rest.takeWhile Char.isDigit, rest.dropWhile Char.isDigit)
    | _ => ([], cs)
  let expVal : Int := match cs with
    | 'e' :: rest | 'E' :: rest =>
      match rest with
      | '-' :: ds => -(digitsToNat (ds.takeWhile Char.isDigit) : Int)
      | '+' :: ds => (digitsToNat (ds.takeWhile Char.isDigit) : Int)
      | ds => (digitsToNat (ds.takeWhile Char.isDigit) : Int)
    | _ => 0
  (digitsToNat (intPart ++ fracPart), expVal - fracPart.length)

/-- Truthiness of a float lexeme: false exactly when the denoted value is the
Python float `0.0`, i.e. when the significand is zero (`0.0`, `-0.00`, `0e5`,
`0.0E3`) or the magnitude `m * 10 ^ e` is at or below `2 ^ (-1075)` — the
halfway point between `0.0` and the smallest subnormal IEEE-754 double, which
correctly-rounded conversion with ties-to-even sends to `0.0` (`1e-999`,
`1e-324`).  For `e < 0` the comparison `m * 10 ^ e > 2 ^ (-1075)` is the
exact integer comparison `m * 2 ^ 1075 > 10 ^ (-e)`. -/
def floatTruthy (lexeme : String) : Bool :=
  let (m, e) := floatParts lexeme
  if m = 0 then false
  else if 0 ≤ e then true
  else m * 2 ^ 1075 > 10 ^ e.natAbs

/-- Python truthiness of a stored value (`if params.get(key):`). -/
def LitVal.truthy : LitVal → Bool
  | .str s => s != ""
  | .int n => n != 0
  | .float lexeme => floatTruthy lexeme
  | .bool b => b
  | .list elems => !elems.isEmpty
  | .pynone => false

/-- Whether the value is Python `None` (`model_dump` entries that are dropped
by `jsonify_options`). -/
def LitVal.isNone : LitVal → Bool
  | .pynone => true
  | _ => false

/-- Whether the value is a Python list (`isinstance(params[key], list)`). -/
def LitVal.isList : LitVal → Bool
  | .list _ => true
  | _ => false

/-- Helper for Python `str.split("\n")`. -/
def splitLinesAux : List Char → List Char → List String
  | [], acc => [String.mk acc]
  | c :: cs, acc =>
    if c = '\n' then String.mk acc :: splitLinesAux cs []
    else splitLinesAux cs (acc ++ [c])

/-- Python `parameter_text.split("\n")`. -/
def splitLines (s : String) : List String :=
  splitLinesAux s.toList []

/-- Python `line.split(maxsplit=1)`: strip leading whitespace, take the first
whitespace-free token, strip the separating whitespace run, and keep the rest
verbatim.  The result has zero, one or two elements. -/
def splitMax1 (line : String) : List String :=
  let cs := line.toList.dropWhile Char.isWhitespace
  let tok := cs.takeWhile (fun c => !c.isWhitespace)
  let rest := cs.dropWhile (fun c => !c.isWhitespace)
  if tok.isEmpty then []
  else
    let rest := rest.dropWhile Char.isWhitespace
    if rest.isEmpty then [String.mk tok]
    else [String.mk tok, String.mk rest]

/-- Whether a trimmed lexeme is a Python float literal:
optional sign, digits, an optional fraction, an optional exponent, with at
least one digit and at least one of `.`/`e`/`E` present. -/
def isFloatLit (s : String) : Bool :=
  let cs := s.toList
  let cs := match cs with
    | '-' :: rest => rest
    | '+' :: rest => rest
    | _ => cs
  let (intPart, cs) := cs.span Char.isDigit
  let (fracDot, fracPart, cs) := match cs with
    | '.' :: rest =>
      let (ds, cs2) := rest.span Char.isDigit
      (true, ds, cs2)
    | _ => (false, [], cs)
  let (expMark, expPart, cs) := match cs with
    | 'e' :: rest | 'E' :: rest =>
      let rest := match rest with
        | '-' :: r => r
        | '+' :: r => r
        | _ => rest
      let (ds, cs2) := rest.span Char.isDigit
      (true, ds, cs2)
    | _ => (false, [], cs)
  cs.isEmpty && (fracDot || expMark) &&
    (!intPart.isEmpty || !fracPart.isEmpty) &&
    (!expMark || !expPart.isEmpty)

/-- Whether a trimmed lexeme is a single-quoted or double-quoted Python
string literal with no embedded quote or backslash. -/
def isStrLit (s : String) : Bool :=
  let cs := s.toList
  match cs with
  | q :: rest =>
    (q = '"' || q = '\x27') && rest.length ≥ 1 &&
      rest.getLast? = some q &&
      (rest.dropLast.all (fun c => c ≠ q && c ≠ '\\'))
  | [] => false

/-- Strip surrounding whitespace, as the literal grammar allows. -/
def pyTrim (s : String) : String :=
  String.mk (((s.toList.dropWhile Char.isWhitespace).reverse.dropWhile
    Char.isWhitespace).reverse)

/-- Whether a trimmed lexeme is an int literal: optional sign, 1+ digits. -/
def isIntLit (s : String) : Bool :=
  let cs := s.toList
  let ds := match cs with
    | '-' :: rest => rest
    | '+' :: rest => rest
    | _ => cs
  !ds.isEmpty && ds.all Char.isDigit

/-- Integer value of an int literal. -/
def intLitVal (s : String) : Int :=
  match s.toList with
  | '-' :: rest => -(digitsToNat rest : Int)
  | '+' :: rest => (digitsToNat rest : Int)
  | cs => (digitsToNat cs : Int)

/-- Evaluate a single scalar literal: `True`/`False`/`None`, an int, a float
or a quoted string; `none` models `SyntaxError`/`ValueError`. -/
def litScalar (s : String) : Option LitVal :=
  let t := pyTrim s
  if t = "True" then some (LitVal.bool true)
  else if t = "False" then some (LitVal.bool false)
  else if t = "None" then some LitVal.pynone
  else if isIntLit t then some (LitVal.int (intLitVal t))
  else if isFloatLit t then some (LitVal.float t)
  else if isStrLit t then some (LitVal.str (String.mk (t.toList.dropLast.drop 1)))
  else none

/-- Split a list-display body on commas (elements are scalar literals, so no
nested commas occur in the modelled fragment). -/
def splitCommasAux : List Char → List Char → List String
  | [], acc => [String.mk acc]
  | c :: cs, acc =>
    if c = ',' then String.mk acc :: splitCommasAux cs []
    else splitCommasAux cs (acc ++ [c])

/-- Model of Python's `ast.literal_eval` restricted to the literal forms the
parameter format uses: scalars and flat (unnested) list displays of scalars.
Anything else fails, which `parse_ollama_parameters` turns into keeping the
raw string. -/
def lit_eval (s : String) : Option LitVal :=
  let t := pyTrim s
  match t.toList with
  | '[' :: rest =>
    if rest.getLast? = some ']' then
      let body := rest.dropLast
      if (pyTrim (String.mk body)) = "" then some (LitVal.list [])
      else
        let parts := (splitCommasAux body []).map litScalar
        if parts.all Option.isSome then
          some (LitVal.list (parts.map (fun p => p.getD LitVal.pynone)))
        else none
    else none
  | _ => litScalar t

/-- An `Options` store: the recognized keys that have been assigned, in
assignment order, each with its current value.  Unassigned recognized keys
are `None` in the Python object; they are simply absent here. -/
abbrev Params := List (String × LitVal)

/-- `ollama.Options.get` (pydantic field access; `none` is Python `None`). -/
def Params.get (p : Params) (k : String) : Option LitVal :=
  (p.find? (fun kv => kv.1 == k)).map (fun kv => kv.2)

/-- `params[key] = value` (pydantic field assignment). -/
def Params.set (p : Params) (k : String) (v : LitVal) : Params :=
  if p.any (fun kv => kv.1 == k) then
    p.map (fun kv => if kv.1 == k then (k, v) else kv)
  else p ++ [(k, v)]

/-- The field names of the external `ollama.Options` pydantic model
(`set(Options.model_fields.keys())` in the source): the spec's fixed set of
recognized generation-parameter names. -/
def validParams : List String :=
  ["numa", "num_ctx", "num_batch", "num_gpu", "main_gpu", "low_vram",
   "f16_kv", "logits_all", "vocab_only", "use_mmap", "use_mlock",
   "embedding_only", "num_thread", "num_keep", "seed", "num_predict",
   "top_k", "top_p", "tfs_z", "typical_p", "repeat_last_n", "temperature",
   "repeat_penalty", "presence_penalty", "frequency_penalty", "mirostat",
   "mirostat_tau", "mirostat_eta", "penalize_newline", "stop"]

/-- `try: value = literal_eval(value) except (SyntaxError, ValueError): pass`
— the evaluated literal, or the raw string when evaluation fails. -/
def evalParamValue (value : String) : LitVal :=
  match lit_eval value with
  | some lv => lv
  | none => LitVal.str value

/-- The body of the `for line in lines` loop of `parse_ollama_parameters`:
skip empty lines, unpack `key, value = line.split(maxsplit=1)` (a `ValueError`
when the line has no value), evaluate the value as a literal keeping the raw
string on failure, drop unrecognized keys, and either assign the key or — when
its current value is truthy — accumulate into a list. -/
def process_parameter_line (params : Params) (line : String) : Except String Params :=
  if line = "" then Except.ok params
  else
    match splitMax1 line with
    | [key, value] =>
      let v : LitVal := evalParamValue value
      if validParams.contains key = false then Except.ok params
      else if (params.get key).elim false LitVal.truthy then
        match params.get key with
        | some (LitVal.list l) => Except.ok (params.set key (LitVal.list (l ++ [v])))
        | some old => Except.ok (params.set key (LitVal.list [old, v]))
        | none => Except.ok (params.set key v)
      else Except.ok (params.set key v)
    | other =>
      Except.error ("not enough values to unpack (expected 2, got " ++
        toString other.length ++ ")")

/-- `parse_ollama_parameters` from `src/oterm/ollamaclient.py`: fold the
per-line step over `parameter_text.split("\n")` starting from an empty
`Options()`; an uncaught `ValueError` aborts the whole parse. -/
def parse_ollama_parameters (parameter_text : String) : Except String Params :=
  (splitLines parameter_text).foldlM process_parameter_line []

/-- Whether an `Except` computation ended in a raised exception. -/
def exceptFails : Except String Params → Bool
  | Except.error _ => true
  | Except.ok _ => false

/-- JSON string rendering of a key or string value (`json.dumps` escaping of
the quote, the backslash and the common control characters). -/
def renderJsonString (s : String) : String :=
  "\"" ++ String.join (s.toList.map (fun c =>
    if c = '"' then "\\\""
    else if c = '\\' then "\\\\"
    else if c = '\n' then "\\n"
    else if c = '\t' then "\\t"
    else if c = '\r' then "\\r"
    else String.mk [c])) ++ "\""

/-- `indent * level` spaces, for `json.dumps(..., indent=2)`. -/
def indentStr (level : Nat) : String :=
  String.mk (List.replicate (2 * level) ' ')

mutual

/-- `json.dumps` rendering of a single value at the given indent level. -/
def renderVal (level : Nat) : LitVal → String
  | LitVal.str s => renderJsonString s
  | LitVal.int n => toString n
  | LitVal.float lexeme => lexeme
  | LitVal.bool b => if b then "true" else "false"
  | LitVal.pynone => "null"
  | LitVal.list [] => "[]"
  | LitVal.list (v :: vs) =>
    "[\n" ++ renderElems (level + 1) v vs ++ "\n" ++ indentStr level ++ "]"
termination_by v => sizeOf v

/-- `json.dumps` rendering of the elements of a non-empty list, one per
line. -/
def renderElems (level : Nat) (v : LitVal) : List LitVal → String
  | [] => indentStr level ++ renderVal level v
  | w :: ws => indentStr level ++ renderVal level v ++ ",\n" ++ renderElems level w ws
termination_by l => sizeOf v + sizeOf l

end

/-- `json.dumps` rendering of the object entries, one per line. -/
def renderEntries (kv : String × LitVal) : List (String × LitVal) → String
  | [] => indentStr 1 ++ renderJsonString kv.1 ++ ": " ++ renderVal 1 kv.2
  | kv2 :: rest =>
    indentStr 1 ++ renderJsonString kv.1 ++ ": " ++ renderVal 1 kv.2 ++ ",\n" ++
      renderEntries kv2 rest

/-- `jsonify_options` from `src/oterm/ollamaclient.py`:
`json.dumps({k: v for k, v in options.model_dump().items() if v is not None},
indent=2)`. -/
def jsonify_options (options : Params) : String :=
  match options.filter (fun kv => kv.2.isNone = false) with
  | [] => "\x7b\x7d"
  | kv :: rest => "\x7b\n" ++ renderEntries kv rest ++ "\n\x7d"

/-- Message roles. -/
inductive Role where
  | system : Role
  | user : Role
  | assistant : Role
  | tool : Role
deriving DecidableEq

/-- A model-issued tool-call request (`tool_call["function"]` in the source:
the name and the keyword-argument mapping, the latter opaque to the engine
and handed to the callable unchanged). -/
structure ToolCallRequest where
  name : String
  arguments : List (String × String)
deriving DecidableEq

/-- A chat message.  `content` is `none` for Python `None`; `images` and
`tool_calls` are empty when absent; `name` is set on tool-result messages. -/
structure Message where
  role : Role
  content : Option String := none
  images : List String := []
  tool_calls : List ToolCallRequest := []
  name : Option String := none
deriving DecidableEq

/-- A tool schema (`tool_def["tool"]`); the engine only ever reads
`tool["function"]["name"]`, so only that field is modelled. -/
structure Tool where
  function_name : String
deriving DecidableEq

/-- A registered tool: schema plus invocable implementation.  The callable
either returns content or raises (`Except.error e` with `e = str(exception)`);
sync and async callables are indistinguishable once awaited. -/
structure ToolDef where
  tool : Tool
  callable : List (String × String) → Except String String

/-- The transport's reply to one chat request. -/
structure ChatResponse where
  message : Message

/-- The user message built by `completion`/`stream` from a prompt (images
attached when present). -/
def mkUserMsg (prompt : String) (images : List String) : Message :=
  { role := Role.user, content := some prompt, images := images }

/-- The assistant message `stream` appends from the accumulated text. -/
def mkAssistantMsg (text : String) : Message :=
  { role := Role.assistant, content := some text }

/-- The tool-result message the dispatcher appends:
`{"role": "tool", "content": tool_response, "name": tool_name}`. -/
def mkToolResultMsg (content : String) (tool_name : String) : Message :=
  { role := Role.tool, content := some content, name := some tool_name }

/-- `try: tool_response = tool_callable(**tool_arguments) except Exception as
e: tool_response = str(e)` — a raising callable degrades to its stringified
error. -/
def runCallable (callable : List (String × String) → Except String String)
    (arguments : List (String × String)) : String :=
  match callable arguments with
  | Except.ok r => r
  | Except.error e => e

/-- The inner `for tool_def in self.tool_defs` loop of `OllamaLLM.completion`
for one tool-call request: every definition whose schema name matches the
requested name is invoked (the loop has no break), each appending one
tool-result message; a request matching nothing appends nothing. -/
def dispatch_tool_call (tool_defs : List ToolDef) (tool_call : ToolCallRequest) :
    List Message :=
  match tool_defs with
  | [] => []
  | tool_def :: rest =>
    if tool_def.tool.function_name = tool_call.name then
      mkToolResultMsg (runCallable tool_def.callable tool_call.arguments) tool_call.name ::
        dispatch_tool_call rest tool_call
    else
      dispatch_tool_call rest tool_call

/-- The outer `for tool_call in tool_calls` loop: the assistant message that
requested the calls, followed by the tool-result messages of each request in
order. -/
def collect_tool_messages (assistant : Message) (tool_defs : List ToolDef)
    (tool_calls : List ToolCallRequest) : List Message :=
  assistant :: tool_calls.foldl (fun acc tc => acc ++ dispatch_tool_call tool_defs tc) []

/-- `if prompt: self.history.append(user_prompt)` — the history as completion
sees it after the optional user-message append. -/
def engineHistory (history : List Message) (prompt : String) (images : List String) :
    List Message :=
  if prompt = "" then history else history ++ [mkUserMsg prompt images]

/-- `OllamaLLM.completion`.  The transport is the oracle `chat` (model name,
options, keep-alive and tool schemas are fixed per engine and folded into
it).  If the prompt is non-empty the user message is appended to history;
`parse_format` may raise; a response with tool calls triggers dispatch and a
recursive call with empty prompt, consuming one unit of fuel (`none` = the
recursion exceeded the fuel, a liveness risk the source accepts); a response
without tool calls is appended to history and its content (or `""`)
returned. -/
def completion (chat : List Message → ChatResponse) (tool_defs : List ToolDef)
    (format : String) :
    Nat → List Message → String → List String → List Message →
    Option (Except String (List Message × String))
  | fuel, history, prompt, images, tool_call_messages =>
    let history := engineHistory history prompt images
    match parse_format format with
    | Except.error e => some (Except.error e)
    | Except.ok _ =>
      let message := (chat (history ++ tool_call_messages)).message
      match message.tool_calls with
      | [] => some (Except.ok (history ++ [message], message.content.getD ""))
      | tcs =>
        match fuel with
        | 0 => none
        | fuel + 1 =>
          completion chat tool_defs format fuel history "" []
            (collect_tool_messages message tool_defs tcs)

/-- `text = text + response.message.content if response.message.content else
text`: a chunk with truthy content extends the buffer, any other chunk leaves
it unchanged. -/
def chunkText (text : String) (chunk : Option String) : String :=
  match chunk with
  | some c => if c = "" then text else text ++ c
  | none => text

/-- The `async for` accumulation loop of `OllamaLLM.stream`: each chunk with
truthy content extends the running buffer, and the buffer's current value is
yielded after every chunk.  Returns the final buffer and the yielded values in
order. -/
def stream_loop (text : String) : List (Option String) → String × List String
  | [] => (text, [])
  | chunk :: rest =>
    let text := chunkText text chunk
    let (final, yields) := stream_loop text rest
    (final, text :: yields)

/-- What a completed stream leaves behind: the values yielded to the consumer
and the final history. -/
structure StreamResult where
  yields : List String
  history : List Message
deriving DecidableEq

/-- `OllamaLLM.stream`.  Raises `NotImplementedError` before touching history
or the transport when tool definitions are supplied (the error carries the
history at raise time, showing it unchanged); otherwise appends the user
message, resolves the format (whose error would also raise), folds the chunk
sequence delivered by the transport, and appends the assistant message built
from the accumulated buffer.  The options merge feeds only the opaque
transport and is not modelled. -/
def stream (tool_defs : List ToolDef) (format : String) (history : List Message)
    (prompt : String) (images : List String) (chunks : List (Option String)) :
    Except (String × List Message) StreamResult :=
  if tool_defs.isEmpty = false then
    Except.error
      ("stream() should not be called with tools till Ollama supports streaming with tools.",
        history)
  else
    let history := history ++ [mkUserMsg prompt images]
    match parse_format format with
    | Except.error e => Except.error (e, history)
    | Except.ok _ =>
      let (text, yields) := stream_loop "" chunks
      Except.ok { yields := yields, history := history ++ [mkAssistantMsg text] }

/-- Boolean prefix test on strings, via their character lists. -/
def strPrefixB (a b : String) : Bool :=
  a.toList.isPrefixOf b.toList

/-- Every element of the list is a prefix of the next. -/
def prefixChain : List String → Bool
  | a :: b :: rest => strPrefixB a b && prefixChain (b :: rest)
  | _ => true

/-- Every element of the list is a STRICT prefix of the next (the claim's
reading of "strict prefix-extension"). -/
def strictChain : List String → Bool
  | a :: b :: rest => (strPrefixB a b && !(a == b)) && strictChain (b :: rest)
  | _ => true

/-! ## Sanity checks: concrete evaluations of the embedded operations -/

example : stream_loop "" [some "a", some "b", none, some "c"] =
    ("abc", ["a", "ab", "ab", "abc"]) := rfl
example : stream_loop "" [some "a", some ""] = ("a", ["a", "a"]) := rfl
example : strictChain ["a", "ab", "abc"] = true := rfl
example : strictChain ["a", "a"] = false := rfl
example : prefixChain ["a", "a", "ab"] = true := rfl

example : floatTruthy "0.1" = true := rfl
example : floatTruthy "0.0" = false := rfl
example : floatTruthy "-0.00" = false := rfl
example : floatTruthy "0e5" = false := rfl
example : floatTruthy "0.0E3" = false := rfl
example : floatTruthy "1e-999" = false := rfl
example : floatTruthy "1e-324" = false := rfl
example : floatTruthy "1e-323" = true := rfl
example : floatTruthy "5e-324" = true := rfl
example : parse_ollama_parameters "temperature 0e5\ntemperature 1" =
    Except.ok [("temperature", LitVal.int 1)] := rfl
example : parse_ollama_parameters "temperature 1e-999\ntemperature 1" =
    Except.ok [("temperature", LitVal.int 1)] := rfl

example : parse_format "" = Except.ok (FormatResult.raw "") := rfl
example : parse_format "json" = Except.ok (FormatResult.raw "json") := rfl
example : parse_format "not json" = Except.error (invalidFormatMsg "not json") := rfl
example : parse_format "\x7b\"type\":\"object\"\x7d" =
    Except.ok (FormatResult.schema [("type", Jsn.str "object")]) := rfl
example : parse_format "3" = Except.error (invalidFormatMsg "3") := rfl
example : parse_format "[1]" = Except.error (invalidFormatMsg "[1]") := rfl
example : parse_format "null" = Except.error (invalidFormatMsg "null") := rfl

example : parse_ollama_parameters "temperature 0.1\ntemperature 0.5" =
    Except.ok [("temperature", LitVal.list [LitVal.float "0.1", LitVal.float "0.5"])] := rfl
example : parse_ollama_parameters "temperature 0\ntemperature 0.5" =
    Except.ok [("temperature", LitVal.float "0.5")] := rfl
example : parse_ollama_parameters "temperature" =
    Except.error "not enough values to unpack (expected 2, got 1)" := rfl
example : parse_ollama_parameters "bogus 3" = Except.ok [] := rfl
example : parse_ollama_parameters "" = Except.ok [] := rfl
example : parse_ollama_parameters "stop a\nstop b\nstop c" =
    Except.ok [("stop", LitVal.list [LitVal.str "a", LitVal.str "b", LitVal.str "c"])] := rfl
example : parse_ollama_parameters "seed 42" = Except.ok [("seed", LitVal.int 42)] := rfl

example : jsonify_options [] = "\x7b\x7d" := rfl
example : jsonify_options [("temperature", LitVal.float "0.1")] =
    "\x7b\n  \"temperature\": 0.1\n\x7d" := by
  simp [jsonify_options, List.filter, LitVal.isNone, renderEntries, renderVal,
    renderJsonString, indentStr]
  rfl
example : jsonify_options [("temperature", LitVal.float "0.1"), ("seed", LitVal.int 7)] =
    "\x7b\n  \"temperature\": 0.1,\n  \"seed\": 7\n\x7d" := by
  simp [jsonify_options, List.filter, LitVal.isNone, renderEntries, renderVal,
    renderJsonString, indentStr]
  rfl
example : jsonify_options [("stop", LitVal.list [LitVal.str "a", LitVal.str "b"])] =
    "\x7b\n  \"stop\": [\n    \"a\",\n    \"b\"\n  ]\n\x7d" := by
  simp [jsonify_options, List.filter, LitVal.isNone, renderEntries, renderVal,
    renderElems, renderJsonString, indentStr]
  rfl
example : parse_ollama_parameters (jsonify_options [("temperature", LitVal.float "0.1")]) =
    Except.error "not enough values to unpack (expected 2, got 1)" := rfl
example : parse_ollama_parameters (jsonify_options []) =
    Except.error "not enough values to unpack (expected 2, got 1)" := rfl

/-! ## Helper lemmas -/

theorem string_toList_append (s t : String) : (s ++ t).toList = s.toList ++ t.toList := by
  cases s
  cases t
  rfl

theorem string_mk_toList (s : String) : String.mk s.toList = s := by
  cases s
  rfl

theorem toList_ne_nil_of_ne_empty (s : String) (h : s ≠ "") : s.toList ≠ [] := by
  intro hl
  apply h
  cases s with
  | mk data =>
    simp only [String.toList] at hl
    simp [hl]

theorem takeWhile_of_all (p : Char → Bool) (l : List Char) (h : l.all p) :
    l.takeWhile p = l := by
  induction l with
  | nil => rfl
  | cons c cs ih =>
    simp only [List.all_cons, Bool.and_eq_true] at h
    simp [List.takeWhile_cons, h.1, ih h.2]

theorem dropWhile_of_all (p : Char → Bool) (l : List Char) (h : l.all p) :
    l.dropWhile p = [] := by
  induction l with
  | nil => rfl
  | cons c cs ih =>
    simp only [List.all_cons, Bool.and_eq_true] at h
    simp [List.dropWhile_cons, h.1, ih h.2]

/-- The dispatcher's per-request behaviour, in closed form: one tool-result
message per matching registered definition, in registration order. -/
theorem dispatch_characterization (tool_defs : List ToolDef) (tc : ToolCallRequest) :
    dispatch_tool_call tool_defs tc =
      (tool_defs.filter (fun td => td.tool.function_name == tc.name)).map
        (fun td => mkToolResultMsg (runCallable td.callable tc.arguments) tc.name) := by
  induction tool_defs with
  | nil => rfl
  | cons td rest ih =>
    by_cases h : td.tool.function_name = tc.name
    · simp [dispatch_tool_call, List.filter_cons, h, ih]
    · simp [dispatch_tool_call, List.filter_cons, h, ih]

/-- One-step unfolding of `completion` when the format directive is valid. -/
theorem completion_eq_of_format_ok (chat : List Message → ChatResponse)
    (tool_defs : List ToolDef) (format : String) (f : FormatResult)
    (hf : parse_format format = Except.ok f) (fuel : Nat) (history : List Message)
    (prompt : String) (images : List String) (tcm : List Message) :
    completion chat tool_defs format fuel history prompt images tcm =
      match (chat (engineHistory history prompt images ++ tcm)).message.tool_calls with
      | [] =>
        some (Except.ok
          (engineHistory history prompt images ++
            [(chat (engineHistory history prompt images ++ tcm)).message],
          ((chat (engineHistory history prompt images ++ tcm)).message.content).getD ""))
      | tcs =>
        match fuel with
        | 0 => none
        | fuel + 1 =>
          completion chat tool_defs format fuel (engineHistory history prompt images) "" []
            (collect_tool_messages
              ((chat (engineHistory history prompt images ++ tcm)).message) tool_defs tcs) := by
  rw [completion.eq_1, hf]

/-- `completion` never surfaces an exception once the format directive is
valid: tool errors are captured inside the dispatch loop. -/
theorem completion_never_raises (chat : List Message → ChatResponse)
    (tool_defs : List ToolDef) (format : String) (f : FormatResult)
    (hf : parse_format format = Except.ok f) :
    ∀ (fuel : Nat) (history : List Message) (prompt : String) (images : List String)
      (tcm : List Message) (err : String),
      completion chat tool_defs format fuel history prompt images tcm ≠
        some (Except.error err) := by
  intro fuel
  induction fuel with
  | zero =>
    intro history prompt images tcm err hcontra
    rw [completion_eq_of_format_ok chat tool_defs format f hf] at hcontra
    split at hcontra
    · exact Except.noConfusion (Option.some.inj hcontra)
    · exact Option.noConfusion hcontra
  | succ n ih =>
    intro history prompt images tcm err hcontra
    rw [completion_eq_of_format_ok chat tool_defs format f hf] at hcontra
    split at hcontra
    · exact Except.noConfusion (Option.some.inj hcontra)
    · exact ih _ _ _ _ _ hcontra

theorem strPrefixB_self (s : String) : strPrefixB s s = true := by
  simp [strPrefixB, List.isPrefixOf_iff_prefix]

theorem strPrefixB_append (s t : String) : strPrefixB s (s ++ t) = true := by
  simp [strPrefixB, List.isPrefixOf_iff_prefix, string_toList_append]

theorem prefixChain_tail {a : String} {l : List String}
    (h : prefixChain (a :: l) = true) : prefixChain l = true := by
  cases l with
  | nil => rfl
  | cons b rest =>
    have h2 : strPrefixB a b = true ∧ prefixChain (b :: rest) = true := by
      simpa [prefixChain] using h
    exact h2.2

theorem stream_loop_chain : ∀ (chunks : List (Option String)) (text : String),
    prefixChain (text :: (stream_loop text chunks).2) = true := by
  intro chunks
  induction chunks with
  | nil => intro text; rfl
  | cons c rest ih =>
    intro text
    have hstep : stream_loop text (c :: rest) =
        ((stream_loop (chunkText text c) rest).1,
          chunkText text c :: (stream_loop (chunkText text c) rest).2) := rfl
    rw [hstep]
    simp only [prefixChain, Bool.and_eq_true]
    refine ⟨?_, ih (chunkText text c)⟩
    unfold chunkText
    cases c with
    | none => exact strPrefixB_self text
    | some s =>
      by_cases hs : s = "" <;> simp [hs, strPrefixB_self, strPrefixB_append]

theorem stream_loop_final : ∀ (chunks : List (Option String)) (text : String),
    (stream_loop text chunks).1 = ((stream_loop text chunks).2).getLastD text := by
  intro chunks
  induction chunks with
  | nil => intro text; rfl
  | cons c rest ih =>
    intro text
    have hstep : stream_loop text (c :: rest) =
        ((stream_loop (chunkText text c) rest).1,
          chunkText text c :: (stream_loop (chunkText text c) rest).2) := rfl
    rw [hstep]
    rw [ih (chunkText text c)]
    cases h : (stream_loop (chunkText text c) rest).2 <;> simp [List.getLastD]

theorem splitLines_lbrace (u : String) :
    splitLines ("\x7b\n" ++ u) = "\x7b" :: splitLines u := by
  unfold splitLines
  rw [string_toList_append]
  rfl

theorem splitMax1_no_sep (line : String) (hne : line ≠ "")
    (hnws : line.toList.all (fun c => !c.isWhitespace) = true) :
    splitMax1 line = [line] := by
  have h1 : line.toList.dropWhile Char.isWhitespace = line.toList := by
    cases hl : line.toList with
    | nil => rfl
    | cons c cs =>
      have hall : (c :: cs).all (fun c => !c.isWhitespace) = true := by
        rw [← hl]; exact hnws
      simp only [List.all_cons, Bool.and_eq_true] at hall
      have : c.isWhitespace = false := by
        cases hcw : c.isWhitespace
        · rfl
        · rw [hcw] at hall; simp at hall
      simp [List.dropWhile_cons, this]
  simp only [splitMax1]
  rw [h1, takeWhile_of_all _ _ hnws, dropWhile_of_all _ _ hnws]
  have h2 : line.toList.isEmpty = false := by
    cases hl : line.toList with
    | nil => exact absurd hl (toList_ne_nil_of_ne_empty line hne)
    | cons c cs => rfl
  simp only [h2, Bool.false_eq_true, if_false, List.dropWhile_nil, List.isEmpty_nil, if_true]
  rw [string_mk_toList]

theorem process_line_no_sep (line : String) (hne : line ≠ "")
    (hnws : line.toList.all (fun c => !c.isWhitespace) = true) (p : Params) :
    process_parameter_line p line =
      Except.error "not enough values to unpack (expected 2, got 1)" := by
  unfold process_parameter_line
  rw [if_neg hne, splitMax1_no_sep line hne hnws]
  show Except.error ("not enough values to unpack (expected 2, got " ++
      toString (1 : Nat) ++ ")") =
    Except.error "not enough values to unpack (expected 2, got 1)"
  rfl

theorem foldlM_fails_of_mem (l : String) (e : String)
    (hl : ∀ q : Params, process_parameter_line q l = Except.error e) :
    ∀ (lines : List String) (p : Params), l ∈ lines →
      exceptFails (List.foldlM process_parameter_line p lines) = true := by
  intro lines
  induction lines with
  | nil => intro p h; simp at h
  | cons a rest ih =>
    intro p hmem
    rw [List.foldlM_cons]
    rcases List.mem_cons.mp hmem with heq | hrest
    · subst heq
      rw [hl p]
      rfl
    · cases hpa : process_parameter_line p a with
      | error e2 => rfl
      | ok p2 => exact ih p2 hrest

/-! ## Claims -/

/-- **C1.** For every call to the Conversation Engine's complete operation
with a non-empty prompt (and a format directive the resolver accepts) where
the transport response carries no tool-call requests, exactly two messages
are appended to history — the user message, then the assistant message, in
that order — and the operation returns the assistant message's text content,
or the empty string if that content is absent. -/
theorem completion_terminal_appends_user_then_assistant
    (chat : List Message → ChatResponse) (tool_defs : List ToolDef)
    (format : String) (f : FormatResult) (fuel : Nat) (history : List Message)
    (prompt : String) (images : List String)
    (hp : prompt ≠ "")
    (hf : parse_format format = Except.ok f)
    (ht : (chat (history ++ [mkUserMsg prompt images])).message.tool_calls = []) :
    completion chat tool_defs format fuel history prompt images [] =
      some (Except.ok
        (history ++ [mkUserMsg prompt images,
          (chat (history ++ [mkUserMsg prompt images])).message],
        ((chat (history ++ [mkUserMsg prompt images])).message.content).getD "")) := by
  have he : engineHistory history prompt images = history ++ [mkUserMsg prompt images] := by
    unfold engineHistory
    rw [if_neg hp]
  rw [completion_eq_of_format_ok chat tool_defs format f hf, he]
  simp only [List.append_nil, ht]
  simp [List.append_assoc]

/-- Witness for C1: a concrete engine, a transport answering without tool
calls, prompt `"hello"`. -/
theorem completion_terminal_appends_user_then_assistant_witness :
    completion (fun _ => ⟨mkAssistantMsg "hi"⟩) [] "" 0 [] "hello" [] [] =
      some (Except.ok ([mkUserMsg "hello" [], mkAssistantMsg "hi"], "hi")) :=
  completion_terminal_appends_user_then_assistant (fun _ => ⟨mkAssistantMsg "hi"⟩)
    [] "" (FormatResult.raw "") 0 [] "hello" [] (by decide) rfl rfl

/-- **C2.** The format resolver is a total classification over exactly three
outcomes: for every input text, if it parses as structured data yielding an
object, that object is returned; otherwise, if parsing fails and the text is
`""` or `"json"`, that text is returned unchanged; otherwise — including text
parsing to a non-object value — it fails with an invalid-format error naming
the offending text.  The spec's concrete cases are included. -/
theorem parse_format_three_outcome_classification :
    (∀ s : String, parse_format s =
      match json_loads s with
      | some (Jsn.obj o) => Except.ok (FormatResult.schema o)
      | some _ => Except.error (invalidFormatMsg s)
      | none =>
        if s = "" ∨ s = "json" then Except.ok (FormatResult.raw s)
        else Except.error (invalidFormatMsg s))
    ∧ parse_format "" = Except.ok (FormatResult.raw "")
    ∧ parse_format "json" = Except.ok (FormatResult.raw "json")
    ∧ parse_format "\x7b\"type\":\"object\"\x7d" =
        Except.ok (FormatResult.schema [("type", Jsn.str "object")])
    ∧ parse_format "not json" = Except.error (invalidFormatMsg "not json") := by
  refine ⟨fun s => ?_, rfl, rfl, rfl, rfl⟩
  unfold parse_format
  cases hj : json_loads s with
  | some j => cases j <;> rfl
  | none =>
    by_cases h1 : s = ""
    · simp [h1]
    · by_cases h2 : s = "json"
      · simp [h1, h2]
      · simp [h1, h2]

/-- **C3.** A tool-call request whose (unique) matched tool implementation
raises yields exactly one tool-result message whose content equals the
stringified error; and with a valid format directive no error ever escapes
the completion operation, so the conversation continues. -/
theorem tool_error_captured_as_result_message
    (tool_defs : List ToolDef) (tc : ToolCallRequest) (e : String)
    (hcount : tool_defs.countP (fun td => td.tool.function_name == tc.name) = 1)
    (herr : ∀ td ∈ tool_defs, td.tool.function_name = tc.name →
      td.callable tc.arguments = Except.error e) :
    dispatch_tool_call tool_defs tc = [mkToolResultMsg e tc.name]
    ∧ ∀ (chat : List Message → ChatResponse) (format : String) (f : FormatResult)
        (fuel : Nat) (history : List Message) (prompt : String)
        (images : List String) (tcm : List Message) (err : String),
        parse_format format = Except.ok f →
        completion chat tool_defs format fuel history prompt images tcm ≠
          some (Except.error err) := by
  constructor
  · rw [dispatch_characterization]
    rw [List.countP_eq_length_filter] at hcount
    obtain ⟨td0, htd0⟩ := List.length_eq_one.mp hcount
    rw [htd0]
    have hmem : td0 ∈ tool_defs.filter (fun td => td.tool.function_name == tc.name) := by
      rw [htd0]
      exact List.mem_singleton.mpr rfl
    obtain ⟨hmem2, hpred⟩ := List.mem_filter.mp hmem
    have hname : td0.tool.function_name = tc.name := by simpa using hpred
    have hcall := herr td0 hmem2 hname
    simp [runCallable, hcall]
  · intro chat format f fuel history prompt images tcm err hf
    exact completion_never_raises chat tool_defs format f hf fuel history prompt
      images tcm err

/-- Witness for C3: one registered tool named `boom` whose callable raises
`kaboom`; the dispatcher emits exactly the one stringified-error message. -/
theorem tool_error_captured_witness :
    dispatch_tool_call [⟨⟨"boom"⟩, fun _ => Except.error "kaboom"⟩] ⟨"boom", []⟩ =
      [mkToolResultMsg "kaboom" "boom"] :=
  (tool_error_captured_as_result_message
    [⟨⟨"boom"⟩, fun _ => Except.error "kaboom"⟩] ⟨"boom", []⟩ "kaboom"
    (by decide)
    (by
      intro td htd _
      simp only [List.mem_singleton] at htd
      subst htd
      rfl)).1

/-- **C4.** A tool-call request naming a tool that matches no registered
definition produces zero tool-result messages; the dispatcher (a total
function here) does not raise — the request is silently skipped. -/
theorem unknown_tool_request_skipped (tool_defs : List ToolDef) (tc : ToolCallRequest)
    (h : ∀ td ∈ tool_defs, td.tool.function_name ≠ tc.name) :
    dispatch_tool_call tool_defs tc = [] := by
  rw [dispatch_characterization]
  have hfil : tool_defs.filter (fun td => td.tool.function_name == tc.name) = [] := by
    rw [List.filter_eq_nil_iff]
    intro td htd
    simpa using h td htd
  rw [hfil]
  rfl

/-- Witness for C4: a registry holding only `known`, a request for
`missing`. -/
theorem unknown_tool_request_skipped_witness :
    dispatch_tool_call [⟨⟨"known"⟩, fun _ => Except.ok "r"⟩] ⟨"missing", []⟩ = [] :=
  unknown_tool_request_skipped [⟨⟨"known"⟩, fun _ => Except.ok "r"⟩] ⟨"missing", []⟩
    (by
      intro td htd
      simp only [List.mem_singleton] at htd
      subst htd
      decide)

/-- Counterexample to C5 as stated: with two definitions both named `t`, the
inner loop (which has no break) invokes BOTH and emits two tool-result
messages, so it is false that only the first match is invoked and exactly one
message produced. -/
theorem duplicate_names_first_match_wins_cex :
    dispatch_tool_call
        [⟨⟨"t"⟩, fun _ => Except.ok "r1"⟩, ⟨⟨"t"⟩, fun _ => Except.ok "r2"⟩]
        ⟨"t", []⟩ =
      [mkToolResultMsg "r1" "t", mkToolResultMsg "r2" "t"]
    ∧ (dispatch_tool_call
        [⟨⟨"t"⟩, fun _ => Except.ok "r1"⟩, ⟨⟨"t"⟩, fun _ => Except.ok "r2"⟩]
        ⟨"t", []⟩).length ≠ 1 :=
  ⟨rfl, by decide⟩

/-- **C5 (amended).** For every tool-call request, EVERY registered definition
whose name matches is invoked, in registration order, and exactly one
tool-result message is produced per matching definition (so a uniquely-named
tool still yields exactly one message, but duplicates each fire). -/
theorem duplicate_names_every_match_invoked (tool_defs : List ToolDef)
    (tc : ToolCallRequest) :
    dispatch_tool_call tool_defs tc =
      (tool_defs.filter (fun td => td.tool.function_name == tc.name)).map
        (fun td => mkToolResultMsg (runCallable td.callable tc.arguments) tc.name) :=
  dispatch_characterization tool_defs tc

/-- **C6.** Calling stream with a non-empty tool-definitions argument fails
immediately with the unsupported-condition error, before any transport
request (the result does not depend on the chunk sequence) and before
appending anything to history (the error carries the history unchanged). -/
theorem stream_with_tools_rejected_eagerly (tool_defs : List ToolDef) (format : String)
    (history : List Message) (prompt : String) (images : List String)
    (chunks : List (Option String)) (h : tool_defs ≠ []) :
    stream tool_defs format history prompt images chunks =
      Except.error
        ("stream() should not be called with tools till Ollama supports streaming with tools.",
          history) := by
  cases tool_defs with
  | nil => exact absurd rfl h
  | cons td rest => rfl

/-- Witness for C6 at one registered tool. -/
theorem stream_with_tools_rejected_witness :
    stream [⟨⟨"t"⟩, fun _ => Except.ok "r"⟩] "" [] "p" [] [some "x"] =
      Except.error
        ("stream() should not be called with tools till Ollama supports streaming with tools.",
          []) :=
  stream_with_tools_rejected_eagerly [⟨⟨"t"⟩, fun _ => Except.ok "r"⟩] "" [] "p" []
    [some "x"] (List.cons_ne_nil _ _)

/-- Counterexample to C7 as stated: a chunk carrying empty content leaves the
buffer unchanged, so the second yielded value equals (is not a STRICT
prefix-extension of) the first. -/
theorem stream_strict_prefix_extension_cex :
    stream [] "" [] "p" [] [some "a", some ""] =
      Except.ok ⟨["a", "a"], [mkUserMsg "p" [], mkAssistantMsg "a"]⟩
    ∧ strictChain ["a", "a"] = false :=
  ⟨rfl, rfl⟩

/-- **C7 (amended).** Each value yielded by stream extends the previous one by
concatenation of the chunk's text — the chunk may carry no content, so the
extension can be empty and consecutive yields equal (prefix, not strict
prefix) — and the assistant message appended to history once the stream is
exhausted has content equal to the last yielded value (`""` when nothing was
yielded). -/
theorem stream_yields_cumulative_and_final (format : String) (f : FormatResult)
    (history : List Message) (prompt : String) (images : List String)
    (chunks : List (Option String)) (hf : parse_format format = Except.ok f) :
    stream [] format history prompt images chunks =
      Except.ok ⟨(stream_loop "" chunks).2,
        (history ++ [mkUserMsg prompt images]) ++
          [mkAssistantMsg (stream_loop "" chunks).1]⟩
    ∧ prefixChain ((stream_loop "" chunks).2) = true
    ∧ (stream_loop "" chunks).1 = ((stream_loop "" chunks).2).getLastD "" := by
  refine ⟨?_, prefixChain_tail (stream_loop_chain chunks ""), stream_loop_final chunks ""⟩
  have hun : stream [] format history prompt images chunks =
      match parse_format format with
      | Except.error e => Except.error (e, history ++ [mkUserMsg prompt images])
      | Except.ok _ =>
        Except.ok ⟨(stream_loop "" chunks).2,
          (history ++ [mkUserMsg prompt images]) ++
            [mkAssistantMsg (stream_loop "" chunks).1]⟩ := rfl
  rw [hun, hf]

/-- Witness for C7 (amended) at a concrete chunk sequence containing a
contentless chunk. -/
theorem stream_yields_cumulative_and_final_witness :
    stream [] "" [] "hi" [] [some "ab", none, some "c"] =
      Except.ok ⟨["ab", "ab", "abc"], [mkUserMsg "hi" [], mkAssistantMsg "abc"]⟩ :=
  (stream_yields_cumulative_and_final "" (FormatResult.raw "") [] "hi" []
    [some "ab", none, some "c"] rfl).1

/-- Counterexample to C8 as stated: for the scalar-only OptionSet
`{temperature: 0.1}`, parsing the serialized text does not return the set —
it raises the unpacking error on the serialized form's first line `{`. -/
theorem options_roundtrip_scalar_cex :
    parse_ollama_parameters (jsonify_options [("temperature", LitVal.float "0.1")]) =
      Except.error "not enough values to unpack (expected 2, got 1)"
    ∧ parse_ollama_parameters (jsonify_options [("temperature", LitVal.float "0.1")]) ≠
      Except.ok [("temperature", LitVal.float "0.1")] := by
  constructor
  · rfl
  · intro h
    rw [show parse_ollama_parameters (jsonify_options [("temperature", LitVal.float "0.1")]) =
        Except.error "not enough values to unpack (expected 2, got 1)" from rfl] at h
    exact Except.noConfusion h

/-- **C8 (amended).** The round trip never holds: for EVERY OptionSet, parsing
the serialized text raises (the serializer emits JSON whose first line is `{`
or `{}`, which the line parser cannot unpack), so `parse(serialize(o)) = o`
fails for all `o`, scalar-valued or not. -/
theorem options_serialized_text_never_reparses (options : Params) :
    exceptFails (parse_ollama_parameters (jsonify_options options)) = true := by
  cases hfe : options.filter (fun kv => kv.2.isNone = false) with
  | nil =>
    have hj : jsonify_options options = "\x7b\x7d" := by
      unfold jsonify_options
      rw [hfe]
    rw [hj]
    rfl
  | cons kv rest =>
    have hj : jsonify_options options = "\x7b\n" ++ (renderEntries kv rest ++ "\n\x7d") := by
      unfold jsonify_options
      rw [hfe]
      show "\x7b\n" ++ renderEntries kv rest ++ "\n\x7d" = _
      rw [String.append_assoc]
    rw [hj]
    unfold parse_ollama_parameters
    rw [splitLines_lbrace, List.foldlM_cons]
    rfl

/-- Counterexample to C9 as stated: a falsy first value (here the int `0`)
fails the `if params.get(key):` truthiness gate, so the second occurrence
OVERWRITES it instead of accumulating into a list. -/
theorem repeated_falsy_key_overwritten_cex :
    parse_ollama_parameters "temperature 0\ntemperature 0.5" =
      Except.ok [("temperature", LitVal.float "0.5")]
    ∧ parse_ollama_parameters "temperature 0\ntemperature 0.5" ≠
      Except.ok [("temperature", LitVal.list [LitVal.int 0, LitVal.float "0.5"])] := by
  constructor
  · rfl
  · intro h
    rw [show parse_ollama_parameters "temperature 0\ntemperature 0.5" =
        Except.ok [("temperature", LitVal.float "0.5")] from rfl] at h
    have h2 := Except.ok.inj h
    simp at h2

/-- **C9 (amended).** A repeated recognized key accumulates into a list —
wrapping the already-set scalar and appending the new value — provided the
already-set value is TRUTHY (non-zero, non-empty, not False); a falsy
existing value is instead overwritten.  (The spec's example with 0.1 and 0.5
accumulates, since 0.1 is truthy; see the witness.) -/
theorem repeated_key_accumulates_when_truthy (params : Params)
    (line key value : String) (old : LitVal)
    (hsplit : splitMax1 line = [key, value])
    (hkey : validParams.contains key = true)
    (hold : params.get key = some old)
    (htruthy : old.truthy = true)
    (hnotlist : old.isList = false) :
    process_parameter_line params line =
      Except.ok (params.set key (LitVal.list [old, evalParamValue value])) := by
  have hne : line ≠ "" := by
    intro h
    rw [h] at hsplit
    rw [show splitMax1 "" = ([] : List String) from rfl] at hsplit
    exact List.noConfusion hsplit
  unfold process_parameter_line
  rw [if_neg hne, hsplit]
  simp only [hkey, Bool.true_eq_false, if_false, hold, Option.elim, htruthy, if_true]
  cases old with
  | list l => simp [LitVal.isList] at hnotlist
  | str s => rfl
  | int n => rfl
  | float lexeme => rfl
  | bool b => rfl
  | pynone => rfl

/-- Witness for C9 (amended): the spec's own example step — `temperature`
already set to the truthy `0.1`, a second line `temperature 0.5`
accumulates `[0.1, 0.5]`. -/
theorem repeated_key_accumulates_when_truthy_witness :
    process_parameter_line [("temperature", LitVal.float "0.1")] "temperature 0.5" =
      Except.ok [("temperature", LitVal.list [LitVal.float "0.1", LitVal.float "0.5"])] :=
  repeated_key_accumulates_when_truthy [("temperature", LitVal.float "0.1")]
    "temperature 0.5" "temperature" "0.5" (LitVal.float "0.1") rfl rfl rfl rfl rfl

/-- **C10.** The parameter-text parse is not total: any input containing a
non-empty line with no whitespace separator (e.g. the single line
`temperature`) raises the unpacking error instead of skipping the line —
totality fails whenever such a line is present. -/
theorem params_line_without_separator_raises (text line : String)
    (hmem : line ∈ splitLines text) (hne : line ≠ "")
    (hnws : line.toList.all (fun c => !c.isWhitespace) = true) :
    exceptFails (parse_ollama_parameters text) = true := by
  unfold parse_ollama_parameters
  exact foldlM_fails_of_mem line "not enough values to unpack (expected 2, got 1)"
    (process_line_no_sep line hne hnws) (splitLines text) [] hmem

/-- Witness for C10 at the claim's own input, the single line
`temperature`. -/
theorem params_line_without_separator_raises_witness :
    exceptFails (parse_ollama_parameters "temperature") = true :=
  params_line_without_separator_raises "temperature" "temperature"
    (by decide) (by decide) (by decide)
